import Mathlib

/-!
# Verification of the ASR master-file decoder

Shallow embedding of `src/fbi_crime_data_decoder.py`: the fixed-width
field decoder for the FBI ASR (Age, Sex, Race) master-file format.
Python strings are modelled as Lean `String`s (lists of characters);
Python slicing, `str.ljust`, `str.strip`, `str.replace`, `str.isdigit`
and `int()` are modelled explicitly below.  The file-processing loop is
modelled as a fold over the list of raw input lines; the filesystem at
the entry point is abstracted as an optional file content.
-/

/-- The expected fixed-width record length, 564 (source line 23). -/
def RECORD_LENGTH : Nat := 564

/-- The offense code marking a header record, "000" (source line 24). -/
def HEADER_OFFENSE_CODE : String := "000"

/-- Python `s.ljust(w)`: right-pad with spaces to length `w`; a string of
length `≥ w` is returned unchanged (Nat subtraction gives an empty pad). -/
def ljust (s : String) (w : Nat) : String :=
  String.mk (s.data ++ List.replicate (w - s.length) ' ')

/-- Source `slice1` (lines 31-36): the 1-indexed inclusive slice
`line[a-1:b]` after padding the line to length `b` when shorter.  The
embedding is faithful for `1 ≤ a` (every call site and claim has `a ≥ 1`;
Python's negative-index semantics for `a = 0` are not modelled). -/
def slice1 (line : String) (a b : Nat) : String :=
  let l := if line.length < b then ljust line b else line
  String.mk ((l.data.drop (a - 1)).take (b - (a - 1)))

/-- The whitespace characters recognised by Python `str.strip()` (ASCII). -/
def pyIsSpace (c : Char) : Bool :=
  c = ' ' || c = '\t' || c = '\n' || c = '\x0d' || c = '\x0b' || c = '\x0c'

/-- Python `str.strip()` on a list of characters: drop whitespace from
both ends. -/
def stripChars (l : List Char) : List Char :=
  ((l.dropWhile pyIsSpace).reverse.dropWhile pyIsSpace).reverse

/-- Python `str.strip()` on a string. -/
def pyStrip (s : String) : String :=
  String.mk (stripChars s.data)

/-- The value of a nonempty list of decimal digits read in base 10
(leading zeros allowed, as in Python `int("00001234")`). -/
def digitsToNat (l : List Char) : Nat :=
  l.foldl (fun acc c => acc * 10 + (c.toNat - '0'.toNat)) 0

/-- Python `int()` applied to an already-stripped string: an optional
sign followed by a nonempty run of decimal digits parses, everything
else raises `ValueError` (modelled as `none`).  Underscore digit
grouping and non-ASCII digits are not modelled. -/
def pyIntParse : List Char → Option Int
  | [] => none
  | '-' :: rest =>
    if rest = [] then none
    else if rest.all Char.isDigit then some (-(digitsToNat rest : Int)) else none
  | '+' :: rest =>
    if rest = [] then none
    else if rest.all Char.isDigit then some ((digitsToNat rest : Int)) else none
  | l =>
    if l.all Char.isDigit then some ((digitsToNat l : Int)) else none

/-- Source `safe_int` (lines 39-47): strip; empty ⇒ 0; direct `int()`
parse; on failure keep only the digit characters and parse those, or 0
when none remain. -/
def safe_int (s : String) : Int :=
  let t := stripChars s.data
  if t = [] then 0
  else
    match pyIntParse t with
    | some n => n
    | none =>
      let filtered := t.filter Char.isDigit
      if filtered = [] then 0 else (digitsToNat filtered : Int)

/-- Whether the pattern matches at the front of the list. -/
def matchesAt : List Char → List Char → Bool
  | [], _ => true
  | _ :: _, [] => false
  | p :: ps, c :: cs => p = c && matchesAt ps cs

/-- Fuel-driven scan for Python `str.replace`: replace every
non-overlapping occurrence of `pat`, left to right, never rescanning the
replacement.  Fuel equal to the list length suffices for nonempty `pat`. -/
def pyReplaceFuel (pat rep : List Char) : Nat → List Char → List Char
  | _, [] => []
  | 0, l => l
  | fuel + 1, c :: rest =>
    if matchesAt pat (c :: rest) then
      rep ++ pyReplaceFuel pat rep fuel (List.drop pat.length (c :: rest))
    else
      c :: pyReplaceFuel pat rep fuel rest

/-- Python string replace for nonempty `pat` (the only use in the source
replaces "male" with "female" in each age-band label). -/
def pyReplace (s pat rep : String) : String :=
  String.mk (pyReplaceFuel pat.data rep.data s.data.length s.data)

/-- The 22 male age-band labels (source lines 69-73). -/
def male_groups : List String :=
  ["male_under_10", "male_10_12", "male_13_14", "male_15", "male_16",
   "male_17", "male_18", "male_19", "male_20", "male_21", "male_22",
   "male_23", "male_24", "male_25_29", "male_30_34", "male_35_39",
   "male_40_44", "male_45_49", "male_50_54", "male_55_59", "male_60_64",
   "male_over_64"]

/-- The 22 female age-band labels, derived exactly as in the source
(line 80): each male label with "male" replaced by "female". -/
def female_groups : List String :=
  male_groups.map (fun g => pyReplace g "male" "female")

/-- The 6 juvenile race/ethnicity labels (source line 87). -/
def juvenile_labels : List String :=
  ["juvenile_white", "juvenile_black", "juvenile_indian", "juvenile_asian",
   "juvenile_hispanic", "juvenile_non_hispanic"]

/-- The 6 adult race/ethnicity labels (source line 94). -/
def adult_labels : List String :=
  ["adult_white", "adult_black", "adult_indian", "adult_asian",
   "adult_hispanic", "adult_non_hispanic"]

/-- A decoded field value: Python records hold either strings or ints. -/
inductive FieldVal where
  | str : String → FieldVal
  | int : Int → FieldVal
deriving DecidableEq

/-- The padding both parsers apply first (source lines 52-53 and
105-106): pad to `RECORD_LENGTH` when shorter. -/
def padToRecord (line : String) : String :=
  if line.length < RECORD_LENGTH then ljust line RECORD_LENGTH else line

/-- The repeated-group loop shared by the four demographic blocks
(source lines 75-78 etc.): for each label take the 9-character slice at
`start`, coerce it, advance `start` by 9. -/
def bandFields (line : String) : List String → Nat → List (String × FieldVal)
  | [], _ => []
  | name :: rest, start =>
    (name, FieldVal.int (safe_int (slice1 line start (start + 8)))) ::
      bandFields line rest (start + 9)

/-- Source `parse_asr_detail_record` (lines 51-101).  A Python dict with
string keys inserted in program order is modelled as an association list
in insertion order. -/
def parse_asr_detail_record (line : String) : List (String × FieldVal) :=
  let line := padToRecord line
  [("identifier", FieldVal.str (slice1 line 1 1)),
   ("state_code", FieldVal.str (slice1 line 2 3)),
   ("ori_code", FieldVal.str (pyStrip (slice1 line 4 10))),
   ("group", FieldVal.str (slice1 line 11 12)),
   ("division", FieldVal.str (slice1 line 13 13)),
   ("year", FieldVal.str (slice1 line 14 15)),
   ("msa", FieldVal.str (pyStrip (slice1 line 16 18))),
   ("card1_indicator_adult_male", FieldVal.str (slice1 line 19 19)),
   ("card2_indicator_adult_female", FieldVal.str (slice1 line 20 20)),
   ("card3_indicator_juvenile", FieldVal.str (slice1 line 21 21)),
   ("adjustment", FieldVal.str (slice1 line 22 22)),
   ("offense_code", FieldVal.str (slice1 line 23 25))]
  ++ bandFields line male_groups 41
  ++ bandFields line female_groups 239
  ++ bandFields line juvenile_labels 437
  ++ bandFields line adult_labels 491

/-- Source `parse_asr_header_record` (lines 104-115). -/
def parse_asr_header_record (line : String) : List (String × FieldVal) :=
  let line := padToRecord line
  [("identifier", FieldVal.str (slice1 line 1 1)),
   ("state_code", FieldVal.str (slice1 line 2 3)),
   ("ori_code", FieldVal.str (pyStrip (slice1 line 4 10))),
   ("group", FieldVal.str (slice1 line 11 12)),
   ("division", FieldVal.str (slice1 line 13 13)),
   ("year", FieldVal.str (slice1 line 14 15)),
   ("raw_line", FieldVal.str line)]

/-- The accumulating state of `process_file`: the two ordered output
sequences and the count of lines read. -/
structure ProcessResult where
  detail_rows : List (List (String × FieldVal))
  header_rows : List (List (String × FieldVal))
  total_lines : Nat
deriving DecidableEq

/-- One iteration of the `process_file` loop body (source lines
129-140).  The rstrip call with an empty strip-set removes nothing and is
the identity, so `line = raw`; a line whose `strip()` is empty is
skipped (but counted); otherwise the line is padded, classified by the
3-character field at positions 23-25 against the sentinel, and routed to
the matching parser. -/
def processLine (sentinel : String) (st : ProcessResult) (raw : String) :
    ProcessResult :=
  let total := st.total_lines + 1
  let line := raw
  if pyStrip line = "" then
    { st with total_lines := total }
  else
    let line := padToRecord line
    let offense_code := slice1 line 23 25
    if offense_code = sentinel then
      { st with header_rows := st.header_rows ++ [parse_asr_header_record line],
                total_lines := total }
    else
      { st with detail_rows := st.detail_rows ++ [parse_asr_detail_record line],
                total_lines := total }

/-- Source `process_file`'s decode loop (lines 124-142) over the file's
raw lines, with the configured sentinel. -/
def process_file (lines : List String) : ProcessResult :=
  lines.foldl (processLine HEADER_OFFENSE_CODE) ⟨[], [], 0⟩

/-- Source `process_file`'s entry (lines 119-143) including the
existence check: the filesystem is abstracted as an optional file
content, `none` meaning the input path does not exist.  A missing path
yields the `FileNotFoundError` message naming the path (source line 122)
before any line is decoded; otherwise the pure decode loop runs to
completion. -/
def process_file_run (input_path : String) (file : Option (List String)) :
    Except String ProcessResult :=
  match file with
  | none => Except.error ("Input file does not exist: " ++ input_path)
  | some lines => Except.ok (process_file lines)

/-! ## Helper lemmas -/

/-- The length of a left-justified string. -/
theorem ljust_length (s : String) (w : Nat) :
    (ljust s w).length = s.length + (w - s.length) := by
  show (s.data ++ List.replicate (w - s.length) ' ').length = s.length + (w - s.length)
  rw [List.length_append, List.length_replicate]
  rfl

/-- Padding to at most the current length is the identity. -/
theorem ljust_of_le (s : String) (w : Nat) (h : w ≤ s.length) :
    ljust s w = s := by
  unfold ljust
  rw [Nat.sub_eq_zero_of_le h]
  rw [List.replicate, List.append_nil]

/-- A nonempty string has positive length. -/
theorem one_le_length_of_ne_empty (s : String) (h : s ≠ "") : 1 ≤ s.length := by
  cases s with
  | mk data =>
    cases data with
    | nil => exact absurd rfl h
    | cons c cs => simp [String.length]

/-- The padded line is at least `RECORD_LENGTH` characters long. -/
theorem padToRecord_length (line : String) :
    RECORD_LENGTH ≤ (padToRecord line).length := by
  unfold padToRecord
  split
  · rw [ljust_length]; omega
  · omega

/-- Dropping a whitespace prefix does not change the digit characters. -/
theorem filter_isDigit_dropWhile (m : List Char) :
    (m.dropWhile pyIsSpace).filter Char.isDigit = m.filter Char.isDigit := by
  induction m with
  | nil => rfl
  | cons c cs ih =>
    by_cases hc : pyIsSpace c = true
    · have hd : Char.isDigit c = false := by
        simp only [pyIsSpace, Bool.or_eq_true, decide_eq_true_eq] at hc
        rcases hc with ((((h | h) | h) | h) | h) | h <;> subst h <;> decide
      simp [List.dropWhile_cons, List.filter_cons, hc, hd, ih]
    · simp [List.dropWhile_cons, hc]

/-- Stripping surrounding whitespace does not change the digit characters. -/
theorem filter_isDigit_stripChars (l : List Char) :
    (stripChars l).filter Char.isDigit = l.filter Char.isDigit := by
  unfold stripChars
  rw [List.filter_reverse, filter_isDigit_dropWhile, List.filter_reverse,
    List.reverse_reverse, filter_isDigit_dropWhile]

/-- Closed form of the repeated-group loop: the `i`-th emitted field is the
label paired with the coerced 9-character slice at `start + 9 * i`. -/
theorem bandFields_eq (line : String) (labels : List String) (start : Nat) :
    bandFields line labels start =
      (List.range labels.length).map
        (fun i => (labels.getD i "",
          FieldVal.int (safe_int (slice1 line (start + 9 * i) (start + 9 * i + 8))))) := by
  induction labels generalizing start with
  | nil => rfl
  | cons name rest ih =>
    rw [List.length_cons, List.range_succ_eq_map, List.map_cons, List.map_map]
    show (name, FieldVal.int (safe_int (slice1 line start (start + 8)))) ::
        bandFields line rest (start + 9) = _
    congr 1
    rw [ih]
    apply List.map_congr_left
    intro i hi
    have h1 : start + 9 * (i + 1) = start + 9 + 9 * i := by ring
    simp [Function.comp, h1]

/-- The labels of a repeated-group block, in order. -/
theorem bandFields_fst (line : String) (labels : List String) (start : Nat) :
    (bandFields line labels start).map Prod.fst = labels := by
  induction labels generalizing start with
  | nil => rfl
  | cons name rest ih => simp [bandFields, ih]

/-- One loop iteration always increments the line count by one, and the two
output sequences it produces do not depend on the incoming count. -/
theorem processLine_eta (sentinel : String) (d h : List (List (String × FieldVal)))
    (t : Nat) (raw : String) :
    processLine sentinel ⟨d, h, t⟩ raw =
      ⟨(processLine sentinel ⟨d, h, 0⟩ raw).detail_rows,
       (processLine sentinel ⟨d, h, 0⟩ raw).header_rows, t + 1⟩ := by
  unfold processLine
  by_cases hb : pyStrip raw = ""
  · simp [hb]
  · simp only [hb, if_false, ite_false]
    split <;> rfl

/-- Closed form of the fold state: the output sequences depend only on the
incoming sequences, and the count grows by the number of lines. -/
theorem foldl_shape (sentinel : String) (lines : List String) :
    ∀ (d h : List (List (String × FieldVal))) (t : Nat),
    List.foldl (processLine sentinel) ⟨d, h, t⟩ lines =
      ⟨(List.foldl (processLine sentinel) ⟨d, h, 0⟩ lines).detail_rows,
       (List.foldl (processLine sentinel) ⟨d, h, 0⟩ lines).header_rows,
       t + lines.length⟩ := by
  induction lines with
  | nil => intro d h t; rfl
  | cons raw rest ih =>
    intro d h t
    have hL : List.foldl (processLine sentinel) ⟨d, h, t⟩ (raw :: rest) =
        List.foldl (processLine sentinel)
          ⟨(processLine sentinel ⟨d, h, 0⟩ raw).detail_rows,
           (processLine sentinel ⟨d, h, 0⟩ raw).header_rows, t + 1⟩ rest := by
      rw [List.foldl_cons, processLine_eta]
    have hR : List.foldl (processLine sentinel) ⟨d, h, 0⟩ (raw :: rest) =
        List.foldl (processLine sentinel)
          ⟨(processLine sentinel ⟨d, h, 0⟩ raw).detail_rows,
           (processLine sentinel ⟨d, h, 0⟩ raw).header_rows, 0 + 1⟩ rest := by
      rw [List.foldl_cons, processLine_eta]
    have i1 := ih (processLine sentinel ⟨d, h, 0⟩ raw).detail_rows
      (processLine sentinel ⟨d, h, 0⟩ raw).header_rows (t + 1)
    have i2 := ih (processLine sentinel ⟨d, h, 0⟩ raw).detail_rows
      (processLine sentinel ⟨d, h, 0⟩ raw).header_rows (0 + 1)
    rw [hL, hR, i1, i2]
    congr 1
    simp only [List.length_cons]
    omega

/-! ## Claim theorems -/

/-- Claim C7: for 1-indexed inclusive bounds `a ≤ b` with `a ≥ 1`, the field
extractor returns the substring covering positions `a` through `b` of the
line right-padded with spaces to length `b`, never raising regardless of the
line's length; in particular `slice1 "AB" 1 5 = "AB   "` and
`slice1 line 1 1` is the first character of any non-empty line. -/
theorem slice1_extracts_padded_substring (line : String) (a b : Nat)
    (ha : 1 ≤ a) (hab : a ≤ b) :
    slice1 line a b = String.mk (((ljust line b).data.drop (a - 1)).take (b - a + 1))
  ∧ slice1 "AB" 1 5 = "AB   "
  ∧ (∀ l : String, l ≠ "" → slice1 l 1 1 = String.mk (l.data.take 1)) := by
  refine ⟨?_, by decide, ?_⟩
  · show String.mk (((if line.length < b then ljust line b else line).data.drop (a - 1)).take
        (b - (a - 1))) = _
    have harith : b - (a - 1) = b - a + 1 := by omega
    by_cases hlt : line.length < b
    · rw [if_pos hlt, harith]
    · rw [if_neg hlt, harith, ljust_of_le line b (by omega)]
  · intro l hl
    have h1 : ¬ l.length < 1 := by
      have := one_le_length_of_ne_empty l hl
      omega
    show String.mk (((if l.length < 1 then ljust l 1 else l).data.drop (1 - 1)).take
        (1 - (1 - 1))) = _
    rw [if_neg h1]
    rfl

/-- Witness for C7 at concrete inputs. -/
theorem slice1_extracts_padded_substring_witness :
    (1 ≤ 1 ∧ (1 : Nat) ≤ 2)
  ∧ slice1 "ABC" 1 2 = String.mk (((ljust "ABC" 2).data.drop (1 - 1)).take (2 - 1 + 1))
  ∧ slice1 "AB" 1 5 = "AB   "
  ∧ slice1 "ABC" 1 1 = String.mk ("ABC".data.take 1) := by
  obtain ⟨h1, h2, h3⟩ := slice1_extracts_padded_substring "ABC" 1 2 (by decide) (by decide)
  exact ⟨⟨by decide, by decide⟩, h1, h2, h3 "ABC" (by decide)⟩

/-- Claim C2: the numeric coercer strips surrounding whitespace; an empty
result yields 0; a direct integer parse of the stripped string is returned
as-is; otherwise the integer read from the decimal-digit subsequence of the
input is returned, or 0 when no digits remain (the function is total, so it
never raises); with the five spec examples. -/
theorem safe_int_contract (s : String) :
    (stripChars s.data = [] → safe_int s = 0)
  ∧ (∀ n : Int, pyIntParse (stripChars s.data) = some n → safe_int s = n)
  ∧ (pyIntParse (stripChars s.data) = none →
      safe_int s = if s.data.filter Char.isDigit = [] then 0
                   else (digitsToNat (s.data.filter Char.isDigit) : Int))
  ∧ safe_int "" = 0 ∧ safe_int "   " = 0 ∧ safe_int "00001234" = 1234
  ∧ safe_int "12a34" = 1234 ∧ safe_int "----" = 0 := by
  refine ⟨?_, ?_, ?_, by decide, by decide, by decide, by decide, by decide⟩
  · intro h
    simp [safe_int, h]
  · intro n hn
    have hne : stripChars s.data ≠ [] := by
      intro h
      rw [h] at hn
      simp [pyIntParse] at hn
    simp [safe_int, hne, hn]
  · intro hn
    by_cases h : stripChars s.data = []
    · have hf : s.data.filter Char.isDigit = [] := by
        rw [← filter_isDigit_stripChars, h]
        rfl
      simp [safe_int, h, hf]
    · simp only [safe_int, if_neg h, hn]
      rw [filter_isDigit_stripChars]

/-- Witness for C2: the digit-filter branch at the spec's own example. -/
theorem safe_int_contract_witness :
    pyIntParse (stripChars "12a34".data) = none ∧ safe_int "12a34" = 1234 := by
  constructor
  · decide
  · have h := (safe_int_contract "12a34").2.2.1 (by decide)
    rw [h]
    decide

/-- Counterexample to claim C3: the coercer is not always non-negative — a
stripped input that parses directly as a negative integer keeps its sign, so
`safe_int "-5"` is `-5`, not the positive magnitude `5`. -/
theorem safe_int_negative_counterexample :
    safe_int "-5" = -5 ∧ safe_int "-5" < 0 ∧ safe_int "-5" ≠ 5 := by
  refine ⟨by decide, by decide, by decide⟩

/-- Claim C3 as amended: the coercer returns a non-negative integer whenever
the stripped input does not parse directly as an integer (only then is a
minus sign stripped as a non-digit, e.g. `safe_int "-5x" = 5`); an input
that parses directly, such as `"-5"`, keeps its sign and can be negative. -/
theorem safe_int_nonneg_unless_direct_parse (s : String) :
    (pyIntParse (stripChars s.data) = none → 0 ≤ safe_int s)
  ∧ safe_int "-5x" = 5 ∧ safe_int "-5" = -5 := by
  refine ⟨?_, by decide, by decide⟩
  intro hn
  by_cases h : stripChars s.data = []
  · simp [safe_int, h]
  · simp only [safe_int, if_neg h, hn]
    split
    · exact le_refl 0
    · exact Int.natCast_nonneg _

/-- Witness for the amended C3 at a concrete input. -/
theorem safe_int_nonneg_unless_direct_parse_witness :
    pyIntParse (stripChars "-5x".data) = none ∧ 0 ≤ safe_int "-5x" :=
  ⟨by decide, (safe_int_nonneg_unless_direct_parse "-5x").1 (by decide)⟩

/-- Claim C5: decoding a line strictly shorter than `RECORD_LENGTH`, with
either decoder, yields the same record as decoding the line right-padded
with spaces to `RECORD_LENGTH`. -/
theorem decode_short_line_pad_equiv (line : String)
    (h : line.length < RECORD_LENGTH) :
    parse_asr_detail_record line = parse_asr_detail_record (ljust line RECORD_LENGTH)
  ∧ parse_asr_header_record line = parse_asr_header_record (ljust line RECORD_LENGTH) := by
  have hlen : (ljust line RECORD_LENGTH).length = RECORD_LENGTH := by
    rw [ljust_length]
    omega
  have hp : padToRecord line = padToRecord (ljust line RECORD_LENGTH) := by
    unfold padToRecord
    rw [if_pos h, if_neg (by omega)]
  constructor
  · unfold parse_asr_detail_record
    rw [hp]
  · unfold parse_asr_header_record
    rw [hp]

/-- Witness for C5 at a concrete short line. -/
theorem decode_short_line_pad_equiv_witness :
    ("AB" : String).length < RECORD_LENGTH
  ∧ parse_asr_detail_record "AB" = parse_asr_detail_record (ljust "AB" RECORD_LENGTH)
  ∧ parse_asr_header_record "AB" = parse_asr_header_record (ljust "AB" RECORD_LENGTH) :=
  ⟨by decide, (decode_short_line_pad_equiv "AB" (by decide)).1,
   (decode_short_line_pad_equiv "AB" (by decide)).2⟩

/-- Counterexample to claim C4: the header decoder does not produce the
trimmed MSA field — no `msa` key appears in a decoded header record. -/
theorem header_record_msa_counterexample :
    ¬ ("msa" ∈ (parse_asr_header_record "").map Prod.fst) := by
  decide

/-- Claim C4 as amended: the header record consists of exactly the first six
identity fields of the detail decoder's identity block — identifier, state
code, trimmed ORI code, group, division, year, at the same positions — with
the MSA field (as well as the card/indicator/offense fields) omitted, plus
the full (possibly padded) line verbatim under `raw_line`. -/
theorem header_record_is_identity_plus_raw (line : String) :
    parse_asr_header_record line =
      (parse_asr_detail_record line).take 6 ++
        [("raw_line", FieldVal.str (padToRecord line))] := rfl

/-- Claim C1: for every input line the detail decoder produces the four
repeated demographic groups by reading consecutive 9-character numeric
sub-fields with stride 9 through the numeric coercer — 22 male age bands
from 1-indexed offset 41, 22 female age bands from offset 239, 6 juvenile
race/ethnicity bands from offset 437 and 6 adult race/ethnicity bands from
offset 491 — each stored under its designated label, right after the 12
identity fields. -/
theorem detail_repeated_groups (line : String) :
    (parse_asr_detail_record line).drop 12 =
      (List.range 22).map (fun i => (male_groups.getD i "",
        FieldVal.int (safe_int (slice1 (padToRecord line) (41 + 9 * i) (41 + 9 * i + 8)))))
   ++ (List.range 22).map (fun i => (female_groups.getD i "",
        FieldVal.int (safe_int (slice1 (padToRecord line) (239 + 9 * i) (239 + 9 * i + 8)))))
   ++ (List.range 6).map (fun i => (juvenile_labels.getD i "",
        FieldVal.int (safe_int (slice1 (padToRecord line) (437 + 9 * i) (437 + 9 * i + 8)))))
   ++ (List.range 6).map (fun i => (adult_labels.getD i "",
        FieldVal.int (safe_int (slice1 (padToRecord line) (491 + 9 * i) (491 + 9 * i + 8))))) := by
  have hdrop : (parse_asr_detail_record line).drop 12 =
      bandFields (padToRecord line) male_groups 41
   ++ bandFields (padToRecord line) female_groups 239
   ++ bandFields (padToRecord line) juvenile_labels 437
   ++ bandFields (padToRecord line) adult_labels 491 := rfl
  rw [hdrop, bandFields_eq, bandFields_eq, bandFields_eq, bandFields_eq]
  rfl

/-- Claim C10: the detail decoder returns a record with exactly these 68
keys in this fixed insertion order — 12 identity keys, then 22 male
age-band keys, 22 female age-band keys, 6 juvenile keys and 6 adult keys —
independent of the line's content or length. -/
theorem detail_record_key_order (line : String) :
    (parse_asr_detail_record line).map Prod.fst =
      ["identifier", "state_code", "ori_code", "group", "division", "year",
       "msa", "card1_indicator_adult_male", "card2_indicator_adult_female",
       "card3_indicator_juvenile", "adjustment", "offense_code",
       "male_under_10", "male_10_12", "male_13_14", "male_15", "male_16",
       "male_17", "male_18", "male_19", "male_20", "male_21", "male_22",
       "male_23", "male_24", "male_25_29", "male_30_34", "male_35_39",
       "male_40_44", "male_45_49", "male_50_54", "male_55_59", "male_60_64",
       "male_over_64",
       "female_under_10", "female_10_12", "female_13_14", "female_15",
       "female_16", "female_17", "female_18", "female_19", "female_20",
       "female_21", "female_22", "female_23", "female_24", "female_25_29",
       "female_30_34", "female_35_39", "female_40_44", "female_45_49",
       "female_50_54", "female_55_59", "female_60_64", "female_over_64",
       "juvenile_white", "juvenile_black", "juvenile_indian",
       "juvenile_asian", "juvenile_hispanic", "juvenile_non_hispanic",
       "adult_white", "adult_black", "adult_indian", "adult_asian",
       "adult_hispanic", "adult_non_hispanic"]
  ∧ (parse_asr_detail_record line).length = 68 := by
  constructor
  · simp only [parse_asr_detail_record, List.map_append, bandFields_fst]
    rfl
  · have h2 : ((parse_asr_detail_record line).map Prod.fst).length = 68 := by
      simp only [parse_asr_detail_record, List.map_append, bandFields_fst]
      rfl
    rw [List.length_map] at h2
    exact h2

/-- Claim C6: for every non-blank line, the loop body extracts the
3-character field at 1-indexed positions 23-25 of the padded line
(the slice depends on no other part of the line) and appends to the header
sequence exactly when that field equals the configured sentinel, otherwise
to the detail sequence; the default sentinel is `"000"`. -/
theorem record_classification (sentinel : String) (st : ProcessResult)
    (raw : String) (h : pyStrip raw ≠ "") :
    slice1 (padToRecord raw) 23 25 =
      String.mk (((padToRecord raw).data.drop 22).take 3)
  ∧ processLine sentinel st raw =
      (if slice1 (padToRecord raw) 23 25 = sentinel then
        { st with header_rows := st.header_rows ++ [parse_asr_header_record (padToRecord raw)],
                  total_lines := st.total_lines + 1 }
      else
        { st with detail_rows := st.detail_rows ++ [parse_asr_detail_record (padToRecord raw)],
                  total_lines := st.total_lines + 1 })
  ∧ HEADER_OFFENSE_CODE = "000" := by
  refine ⟨?_, ?_, rfl⟩
  · have h25 : ¬ (padToRecord raw).length < 25 := by
      have hp := padToRecord_length raw
      unfold RECORD_LENGTH at hp
      omega
    show String.mk (((if (padToRecord raw).length < 25 then ljust (padToRecord raw) 25
        else padToRecord raw).data.drop (23 - 1)).take (25 - (23 - 1))) = _
    rw [if_neg h25]
  · simp only [processLine]
    rw [if_neg h]

set_option maxRecDepth 4096 in
/-- Witness for C6: a non-blank line whose positions 23-25 hold spaces is
routed to the detail sequence. -/
theorem record_classification_witness :
    pyStrip "X" ≠ ""
  ∧ processLine "000" ⟨[], [], 0⟩ "X" =
      ⟨[parse_asr_detail_record (padToRecord "X")], [], 1⟩ := by
  constructor
  · decide
  · have h := (record_classification "000" ⟨[], [], 0⟩ "X" (by decide)).2.1
    rw [h, if_neg (by decide)]
    rfl

/-- Claim C8: the run fails exactly when the input path does not exist, with
an error naming the missing path, before any record is produced; otherwise
the decode pass is the total, deterministic fold over the file's lines (no
partial-failure outcome).  The filesystem is abstracted as an optional file
content (`none` = missing path). -/
theorem missing_input_fail_fast (path : String) (file : Option (List String)) :
    (file = none →
      process_file_run path file = Except.error ("Input file does not exist: " ++ path))
  ∧ (∀ lines, file = some lines →
      process_file_run path file = Except.ok (process_file lines))
  ∧ ((∃ e, process_file_run path file = Except.error e) ↔ file = none) := by
  cases file with
  | none =>
    refine ⟨fun _ => rfl, ?_, ?_⟩
    · intro lines hl
      exact Option.noConfusion hl
    · exact ⟨fun _ => rfl, fun _ => ⟨"Input file does not exist: " ++ path, rfl⟩⟩
  | some lines =>
    refine ⟨?_, ?_, ?_⟩
    · intro hc
      exact Option.noConfusion hc
    · intro lines2 hl
      injection hl with h2
      subst h2
      rfl
    · constructor
      · rintro ⟨e, he⟩
        simp [process_file_run] at he
      · intro hc
        exact Option.noConfusion hc

/-- Witness for C8 at a concrete path and both filesystem states. -/
theorem missing_input_fail_fast_witness :
    process_file_run "input.txt" none =
      Except.error ("Input file does not exist: " ++ "input.txt")
  ∧ process_file_run "input.txt" (some []) = Except.ok (process_file []) :=
  ⟨(missing_input_fail_fast "input.txt" none).1 rfl,
   (missing_input_fail_fast "input.txt" (some [])).2.1 [] rfl⟩

/-- Claim C9: a blank (all-whitespace) line anywhere in the input
contributes no record to either output sequence but still counts toward the
total number of lines read. -/
theorem blank_lines_skipped (xs ys : List String) (blank : String)
    (hb : pyStrip blank = "") :
    (process_file (xs ++ blank :: ys)).detail_rows = (process_file (xs ++ ys)).detail_rows
  ∧ (process_file (xs ++ blank :: ys)).header_rows = (process_file (xs ++ ys)).header_rows
  ∧ (process_file (xs ++ blank :: ys)).total_lines
      = (process_file (xs ++ ys)).total_lines + 1 := by
  unfold process_file
  rw [List.foldl_append, List.foldl_append, List.foldl_cons]
  generalize List.foldl (processLine HEADER_OFFENSE_CODE) ⟨[], [], 0⟩ xs = A
  obtain ⟨d, hrows, t⟩ := A
  have hblank : processLine HEADER_OFFENSE_CODE ⟨d, hrows, t⟩ blank =
      ⟨d, hrows, t + 1⟩ := by
    simp only [processLine]
    rw [if_pos hb]
  rw [hblank, foldl_shape HEADER_OFFENSE_CODE ys d hrows (t + 1),
    foldl_shape HEADER_OFFENSE_CODE ys d hrows t]
  refine ⟨rfl, rfl, ?_⟩
  show (t + 1) + ys.length = (t + ys.length) + 1
  omega

/-- Witness for C9: one blank line alone is counted but produces nothing. -/
theorem blank_lines_skipped_witness :
    pyStrip "  " = ""
  ∧ (process_file ["  "]).detail_rows = (process_file []).detail_rows
  ∧ (process_file ["  "]).header_rows = (process_file []).header_rows
  ∧ (process_file ["  "]).total_lines = (process_file []).total_lines + 1 := by
  have h := blank_lines_skipped [] [] "  " (by decide)
  exact ⟨by decide, h.1, h.2.1, h.2.2⟩
